import Mathlib

/-!
# Verification of the survey Submission Service

Shallow embedding of the two server variants in this repository:
* the SQLite variant (`src/server.js`, first part): stores `q1_c` as a JSON
  text column, `consentAgreed` as TEXT, fetches with `ORDER BY id DESC` and
  decodes the columns in the `GET /api/results` handler;
* the MongoDB variant (`src/unnamed/part_000`, and the MongoDB variant
  appended in `src/server.js`, which is line-for-line the same handler logic):
  normalises the document before `insertOne` and renames keys on fetch.

JavaScript runtime values are modelled by `JVal` (integers stand in for JS
numbers; the payloads at issue carry strings, string arrays, booleans and
integer durations).  JS objects are association lists with JS-faithful
member access, member update (in-place overwrite, append when absent) and
`delete`.  `JSON.stringify` / `JSON.parse` are modelled on the integer
fragment of JSON (no floats, no `\u` escapes), which covers every value the
submit path can put into the `q1_c` column.
-/

namespace Survey

/-- A JavaScript runtime value: `undef` is JS `undefined` (an absent member
reads as `undef`). Numbers are modelled as integers. -/
inductive JVal where
  | null
  | undef
  | bool (b : Bool)
  | num (n : Int)
  | str (s : String)
  | arr (elems : List JVal)
  | obj (fields : List (String × JVal))
deriving Repr

mutual

/-- Decidable equality of `JVal`, written by hand because the type nests
`List`. -/
def JVal.beq : JVal → JVal → Bool
  | .null, .null => true
  | .undef, .undef => true
  | .bool a, .bool b => a == b
  | .num a, .num b => a == b
  | .str a, .str b => a == b
  | .arr a, .arr b => JVal.beqList a b
  | .obj a, .obj b => JVal.beqFields a b
  | _, _ => false

def JVal.beqList : List JVal → List JVal → Bool
  | [], [] => true
  | a :: as, b :: bs => JVal.beq a b && JVal.beqList as bs
  | _, _ => false

def JVal.beqFields : List (String × JVal) → List (String × JVal) → Bool
  | [], [] => true
  | (k, v) :: as, (k', v') :: bs => k == k' && JVal.beq v v' && JVal.beqFields as bs
  | _, _ => false

end

mutual

theorem JVal.beq_iff : ∀ a b : JVal, JVal.beq a b = true ↔ a = b
  | .null, b => by cases b <;> simp [JVal.beq]
  | .undef, b => by cases b <;> simp [JVal.beq]
  | .bool a, b => by cases b <;> simp [JVal.beq]
  | .num a, b => by cases b <;> simp [JVal.beq]
  | .str a, b => by cases b <;> simp [JVal.beq]
  | .arr as, b => by
      cases b <;> simp [JVal.beq]
      exact JVal.beqList_iff as _
  | .obj as, b => by
      cases b <;> simp [JVal.beq]
      exact JVal.beqFields_iff as _

theorem JVal.beqList_iff : ∀ as bs : List JVal, JVal.beqList as bs = true ↔ as = bs
  | [], bs => by cases bs <;> simp [JVal.beqList]
  | a :: as, bs => by
      cases bs with
      | nil => simp [JVal.beqList]
      | cons b bs =>
          simp [JVal.beqList, JVal.beq_iff a b, JVal.beqList_iff as bs]

theorem JVal.beqFields_iff :
    ∀ as bs : List (String × JVal), JVal.beqFields as bs = true ↔ as = bs
  | [], bs => by cases bs <;> simp [JVal.beqFields]
  | (k, v) :: as, bs => by
      cases bs with
      | nil => simp [JVal.beqFields]
      | cons b bs =>
          obtain ⟨k', v'⟩ := b
          simp [JVal.beqFields, JVal.beq_iff v v', JVal.beqFields_iff as bs,
            and_assoc]

end

instance : DecidableEq JVal := fun a b =>
  decidable_of_iff (JVal.beq a b = true) (JVal.beq_iff a b)

/-- A JavaScript object: an association list of members, first occurrence
wins on read (the lists we build never hold a duplicate key). -/
def Obj : Type := List (String × JVal)

instance : DecidableEq Obj :=
  inferInstanceAs (DecidableEq (List (String × JVal)))

instance : Append Obj := ⟨fun a b => List.append a b⟩

/-- JS member read `o[k]`: the value at `k`, or `undefined` when absent. -/
def Obj.get : Obj → String → JVal
  | [], _ => .undef
  | (k', v) :: rest, k => if k' = k then v else Obj.get rest k

/-- JS member write `o[k] = v` (also the behaviour of a later key in an
object literal): overwrite in place when the key exists, append otherwise. -/
def Obj.set : Obj → String → JVal → Obj
  | [], k, v => [(k, v)]
  | (k', v') :: rest, k, v =>
      if k' = k then (k, v) :: rest else (k', v') :: Obj.set rest k v

/-- JS `delete o[k]`. -/
def Obj.del : Obj → String → Obj
  | [], _ => []
  | (k', v') :: rest, k =>
      if k' = k then Obj.del rest k else (k', v') :: Obj.del rest k

/-- JS `k in o` / `Object.hasOwn`. -/
def Obj.hasKey : Obj → String → Bool
  | [], _ => false
  | (k', _) :: rest, k => k' = k || Obj.hasKey rest k

/-- JS truthiness: `undefined`, `null`, `false`, `0`, and `""` are falsy;
every object (arrays included) is truthy. -/
def truthy : JVal → Bool
  | .null => false
  | .undef => false
  | .bool b => b
  | .num n => n ≠ 0
  | .str s => s ≠ ""
  | .arr _ => true
  | .obj _ => true

mutual

/-- JS `String(v)` conversion. Arrays join their elements with `","`
(`null`/`undefined` elements become empty); plain objects print as
`"[object Object]"`. -/
def jsString : JVal → String
  | .null => "null"
  | .undef => "undefined"
  | .bool b => if b then "true" else "false"
  | .num n => toString n
  | .str s => s
  | .arr xs => jsStringElems xs
  | .obj _ => "[object Object]"

def jsStringElems : List JVal → String
  | [] => ""
  | [.null] => ""
  | [.undef] => ""
  | [x] => jsString x
  | .null :: xs => "," ++ jsStringElems xs
  | .undef :: xs => "," ++ jsStringElems xs
  | x :: xs => jsString x ++ "," ++ jsStringElems xs

end

/-- ASCII lower-casing of one character, as JS `toLowerCase` acts on the
ASCII range (the only range the consent comparison can be sensitive to). -/
def lowerChar (c : Char) : Char :=
  if 'A' ≤ c ∧ c ≤ 'Z' then Char.ofNat (c.toNat + 32) else c

/-- JS `s.toLowerCase()` on the ASCII range. -/
def jsToLower (s : String) : String := String.mk (s.data.map lowerChar)

/-! ## JSON.stringify / JSON.parse

The SQLite variant stores `q1_c` as `JSON.stringify(data.q1_c || [])` and
decodes it on fetch with `JSON.parse`, falling back to `[]` on a parse
error.  We model the integer fragment of JSON: numerals without fraction,
exponent or `\u` escapes.  Every text the submit path writes into the
column lies inside this fragment. -/

/-- The escape `JSON.stringify` emits for one character of a string (the
common escapes; characters below `0x20` outside `\n`, `\t`, `\r` would be
`\u`-escaped by JS and are outside the modelled fragment). -/
def escChar (c : Char) : List Char :=
  if c = '"' then ['\\', '"']
  else if c = '\\' then ['\\', '\\']
  else if c = '\n' then ['\\', 'n']
  else if c = '\t' then ['\\', 't']
  else if c = '\r' then ['\\', 'r']
  else [c]

/-- Escaped body of a JSON string literal. -/
def escBody : List Char → List Char
  | [] => []
  | c :: cs => escChar c ++ escBody cs

mutual

/-- `JSON.stringify`, producing the character list of the JSON text.  The
`undef` branch is unreachable from the submit path (its argument is
`data.q1_c || []`, never `undefined`); inside arrays JS emits `null` for
`undefined`, which is what the branch does. -/
def stringifyChars : JVal → List Char
  | .null => "null".data
  | .undef => "null".data
  | .bool true => "true".data
  | .bool false => "false".data
  | .num n => (toString n).data
  | .str s => '"' :: (escBody s.data ++ ['"'])
  | .arr [] => ['[', ']']
  | .arr (x :: xs) => '[' :: ((stringifyChars x ++ stringifyElems xs) ++ [']'])
  | .obj [] => ['\x7b', '\x7d']
  | .obj (f :: fs) => '\x7b' :: ((stringifyMember f ++ stringifyMembers fs) ++ ['\x7d'])

def stringifyElems : List JVal → List Char
  | [] => []
  | x :: xs => ',' :: (stringifyChars x ++ stringifyElems xs)

def stringifyMember : String × JVal → List Char
  | (k, v) => '"' :: (escBody k.data ++ ('"' :: ':' :: stringifyChars v))

def stringifyMembers : List (String × JVal) → List Char
  | [] => []
  | f :: fs => ',' :: (stringifyMember f ++ stringifyMembers fs)

end

/-- `JSON.stringify` as a string-valued function. -/
def jsonStringify (v : JVal) : String := String.mk (stringifyChars v)

/-- JSON whitespace (space, newline, tab, carriage return). -/
def isWs (c : Char) : Bool :=
  c.toNat = 32 || c.toNat = 10 || c.toNat = 9 || c.toNat = 13

/-- Drop leading JSON whitespace. -/
def skipWs : List Char → List Char
  | [] => []
  | c :: cs => if isWs c then skipWs cs else c :: cs

/-- Decode the character after a backslash in a JSON string literal
(`\u` escapes are outside the modelled fragment). -/
def escDecode (c : Char) : Option Char :=
  if c = '"' then some '"'
  else if c = '\\' then some '\\'
  else if c = '/' then some '/'
  else if c = 'n' then some '\n'
  else if c = 't' then some '\t'
  else if c = 'r' then some '\r'
  else if c = 'b' then some (Char.ofNat 8)
  else if c = 'f' then some (Char.ofNat 12)
  else none

/-- Parse the body of a JSON string literal after the opening quote:
returns the decoded characters and the input after the closing quote.
The flag records a pending backslash.  Unescaped control characters are a
parse error, as in JS. -/
def parseStrBodySt : Bool → List Char → Option (List Char × List Char)
  | _, [] => none
  | true, e :: cs =>
    match escDecode e with
    | none => none
    | some d =>
      match parseStrBodySt false cs with
      | none => none
      | some (body, rest) => some (d :: body, rest)
  | false, c :: cs =>
    if c = '"' then some ([], cs)
    else if c = '\\' then parseStrBodySt true cs
    else if c.toNat < 32 then none
    else
      match parseStrBodySt false cs with
      | none => none
      | some (body, rest) => some (c :: body, rest)

/-- Parse the body of a JSON string literal after the opening quote. -/
def parseStrBody : List Char → Option (List Char × List Char) :=
  parseStrBodySt false

/-- A decimal digit. -/
def isDigit (c : Char) : Bool := 48 ≤ c.toNat && c.toNat ≤ 57

/-- Maximal run of leading digits. -/
def takeDigits : List Char → List Char × List Char
  | [] => ([], [])
  | c :: cs =>
    if isDigit c then
      match takeDigits cs with
      | (ds, rest) => (c :: ds, rest)
    else ([], c :: cs)

/-- Numeric value of a digit run. -/
def digitsVal : List Char → Nat → Nat
  | [], acc => acc
  | d :: ds, acc => digitsVal ds (10 * acc + (d.toNat - 48))

/-- Parse a JSON numeral (integer fragment: a fraction or exponent is
outside the modelled fragment and rejected). -/
def parseNum (cs : List Char) : Option (JVal × List Char) :=
  let signed := match cs with
    | '-' :: rest => (true, rest)
    | _ => (false, cs)
  match takeDigits signed.2 with
  | ([], _) => none
  | (ds, rest) =>
    match rest with
    | '.' :: _ => none
    | 'e' :: _ => none
    | 'E' :: _ => none
    | _ =>
      let n : Int := digitsVal ds 0
      some (.num (if signed.1 then -n else n), rest)

/-- Check the input starts with the expected literal tail, returning the
given value and the rest. -/
def expectLit : List Char → List Char → JVal → Option (JVal × List Char)
  | [], rest, v => some (v, rest)
  | _ :: _, [], _ => none
  | e :: es, c :: rest, v => if c = e then expectLit es rest v else none

mutual

/-- Recursive-descent JSON value parser; `fuel` bounds the recursion and is
instantiated with more than the input length, which always suffices. -/
def parseVal : Nat → List Char → Option (JVal × List Char)
  | 0, _ => none
  | fuel + 1, cs =>
    match skipWs cs with
    | [] => none
    | c :: rest =>
      if c = '"' then
        match parseStrBody rest with
        | none => none
        | some (body, rest') => some (.str (String.mk body), rest')
      else if c = '[' then
        match skipWs rest with
        | ']' :: rest' => some (.arr [], rest')
        | cs' =>
          match parseElems fuel cs' with
          | none => none
          | some (vs, rest') => some (.arr vs, rest')
      else if c = '\x7b' then
        match skipWs rest with
        | '\x7d' :: rest' => some (.obj [], rest')
        | cs' =>
          match parseMembers fuel cs' with
          | none => none
          | some (fs, rest') => some (.obj fs, rest')
      else if c = 't' then expectLit ['r', 'u', 'e'] rest (.bool true)
      else if c = 'f' then expectLit ['a', 'l', 's', 'e'] rest (.bool false)
      else if c = 'n' then expectLit ['u', 'l', 'l'] rest .null
      else parseNum (c :: rest)

/-- Parse `value (',' value)* ']'` inside a non-empty JSON array. -/
def parseElems : Nat → List Char → Option (List JVal × List Char)
  | 0, _ => none
  | fuel + 1, cs =>
    match parseVal fuel cs with
    | none => none
    | some (v, rest) =>
      match skipWs rest with
      | ',' :: rest' =>
        match parseElems fuel rest' with
        | none => none
        | some (vs, rest'') => some (v :: vs, rest'')
      | ']' :: rest' => some ([v], rest')
      | _ => none

/-- Parse `string ':' value (',' ...)* closing-brace` inside a non-empty
JSON object. -/
def parseMembers : Nat → List Char → Option (List (String × JVal) × List Char)
  | 0, _ => none
  | fuel + 1, cs =>
    match skipWs cs with
    | '"' :: rest =>
      match parseStrBody rest with
      | none => none
      | some (key, rest') =>
        match skipWs rest' with
        | ':' :: rest'' =>
          match parseVal fuel rest'' with
          | none => none
          | some (v, rest₃) =>
            match skipWs rest₃ with
            | ',' :: rest₄ =>
              match parseMembers fuel rest₄ with
              | none => none
              | some (fs, rest₅) => some ((String.mk key, v) :: fs, rest₅)
            | '\x7d' :: rest₄ => some ([(String.mk key, v)], rest₄)
            | _ => none
        | _ => none
    | _ => none

end

/-- `JSON.parse`: parse one value and reject trailing garbage (as JS does).
`none` models the thrown `SyntaxError`. -/
def jsonParse (s : String) : Option JVal :=
  match parseVal (s.length + 1) s.data with
  | none => none
  | some (v, rest) => if skipWs rest = [] then some v else none

instance : BEq JVal := ⟨JVal.beq⟩

deriving instance DecidableEq for Except

/-! ## The SQLite variant (`src/server.js`, SQLite part) -/

/-- Binding a JS value as a SQL parameter: `undefined` and `null` both bind
SQL `NULL`; other values are stored as bound. -/
def bindVal : JVal → JVal
  | .undef => .null
  | .null => .null
  | v => v

/-- `const q1_c_json = JSON.stringify(data.q1_c || []);`
(JS `a || b` yields `a` when `a` is truthy, else `b`). -/
def q1cJson (data : Obj) : String :=
  jsonStringify (if truthy (data.get "q1_c") then data.get "q1_c" else .arr [])

/-- `const consentValue = data.consentAgreed ? String(data.consentAgreed) : 'false';` -/
def consentValue (data : Obj) : String :=
  if truthy (data.get "consentAgreed") then jsString (data.get "consentAgreed")
  else "false"

/-- The `responses` table: rows plus the `AUTOINCREMENT` counter for `id`. -/
structure SqliteDB where
  rows : List Obj
  nextId : Int
deriving DecidableEq

def sqliteEmptyDB : SqliteDB := ⟨[], 1⟩

/-- The row the `INSERT INTO responses` statement writes: the bound
parameters in schema order, with the autoincremented `id` and the
`DEFAULT CURRENT_TIMESTAMP` timestamp (the INSERT names no timestamp
column). -/
def sqliteNewRow (data : Obj) (id : Int) (now : Int) : Obj :=
  [("id", .num id),
   ("consentAgreed", .str (consentValue data)),
   ("gradeLevel", bindVal (data.get "gradeLevel")),
   ("q1_a", bindVal (data.get "q1_a")),
   ("q1_b", bindVal (data.get "q1_b")),
   ("q1_c", .str (q1cJson data)),
   ("q1_d", bindVal (data.get "q1_d")),
   ("q1_e", bindVal (data.get "q1_e")),
   ("q1_f", bindVal (data.get "q1_f")),
   ("q2_a", bindVal (data.get "q2_a")),
   ("q2_b", bindVal (data.get "q2_b")),
   ("q2_c", bindVal (data.get "q2_c")),
   ("readingDuration", bindVal (data.get "finalReadingDuration")),
   ("quiz_q1", bindVal (data.get "quiz_q1")),
   ("quiz_q2", bindVal (data.get "quiz_q2")),
   ("quiz_q3", bindVal (data.get "quiz_q3")),
   ("quiz_q4", bindVal (data.get "quiz_q4")),
   ("quiz_q5", bindVal (data.get "quiz_q5")),
   ("quiz_q6", bindVal (data.get "quiz_q6")),
   ("quiz_q7", bindVal (data.get "quiz_q7")),
   ("timestamp", .num now)]

/-- `db.run(INSERT ...)`: the schema declares `gradeLevel TEXT NOT NULL`,
so binding `NULL` there makes the insert fail; otherwise the row is
appended and `this.lastID` reported. -/
def sqliteRun (db : SqliteDB) (data : Obj) (now : Int) :
    Except String (SqliteDB × Int) :=
  if bindVal (data.get "gradeLevel") = .null then
    .error "SQLITE_CONSTRAINT: NOT NULL constraint failed: responses.gradeLevel"
  else
    .ok (⟨db.rows ++ [sqliteNewRow data db.nextId now], db.nextId + 1⟩, db.nextId)

/-- The `POST /api/submit` callback of the SQLite variant as a function of
the `db.run` outcome: HTTP status and JSON body. -/
def sqliteSubmitResponse : Except String (SqliteDB × Int) → Nat × Obj
  | .error _ => (500, [("message", .str "Server error during submission.")])
  | .ok (_, lastID) =>
      (201, [("message", .str "Survey submitted successfully!"),
             ("id", .num lastID)])

/-- Sort key for `ORDER BY id DESC`. -/
def idKey (row : Obj) : Int :=
  match row.get "id" with
  | .num n => n
  | _ => 0

/-- Sort key for Mongo `sort(\x7b timestamp: -1 \x7d)`. -/
def tsKey (row : Obj) : Int :=
  match row.get "timestamp" with
  | .num n => n
  | _ => 0

/-- Insert into a descending-sorted list (stable). -/
def insertDesc (key : Obj → Int) (x : Obj) : List Obj → List Obj
  | [] => [x]
  | y :: ys => if key y < key x then x :: y :: ys else y :: insertDesc key x ys

/-- Descending sort by a key (insertion sort). -/
def sortDesc (key : Obj → Int) : List Obj → List Obj
  | [] => []
  | x :: xs => insertDesc key x (sortDesc key xs)

/-- `SELECT * FROM responses ORDER BY id DESC`. -/
def sqliteSelect (db : SqliteDB) : List Obj := sortDesc idKey db.rows

/-- Body of the `rows.map` in the SQLite `GET /api/results` handler:
`q1_c` is `JSON.parse`d with an empty-array fallback on error,
`consentAgreed` becomes the boolean of the three `===` comparisons,
`readingDuration` is renamed to `finalReadingDuration`. -/
def sqliteFetchRow (row : Obj) : Obj :=
  let r1 := row.set "q1_c"
    (match jsonParse (jsString (row.get "q1_c")) with
     | some v => v
     | none => .arr [])
  let r2 := r1.set "consentAgreed"
    (.bool (r1.get "consentAgreed" == .str "true"
        || r1.get "consentAgreed" == .str "1"
        || r1.get "consentAgreed" == .bool true))
  let r3 := r2.set "finalReadingDuration" (r2.get "readingDuration")
  r3.del "readingDuration"

/-- Successful `GET /api/results` of the SQLite variant: mapped rows. -/
def sqliteResultsRows (db : SqliteDB) : List Obj :=
  (sqliteSelect db).map sqliteFetchRow

/-- A JSON response body: either an object (error message) or an array of
records. -/
inductive RespBody where
  | objBody (o : Obj)
  | arrBody (rows : List Obj)
deriving DecidableEq

/-- The `db.all` callback of the SQLite `GET /api/results` handler as a
function of its outcome. -/
def sqliteResultsResponse : Except String (List Obj) → Nat × RespBody
  | .error _ => (500, .objBody [("message", .str "Server error fetching results.")])
  | .ok rows => (200, .arrBody (rows.map sqliteFetchRow))

/-! ## The MongoDB variant (`src/unnamed/part_000`; the MongoDB variant
appended in `src/server.js` has the same handler logic) -/

/-- `docToInsert` built by `POST /api/submit` before `insertOne`:
spread of `data` with `q1_c` coerced to an array, the duration renamed to
the storage key, the server timestamp, the consent flag coerced to boolean
via lower-cased string comparison with `"true"`, and the client key
`finalReadingDuration` deleted. -/
def mongoDocToInsert (data : Obj) (now : Int) : Obj :=
  let d1 := data.set "q1_c"
    (match data.get "q1_c" with
     | .arr xs => .arr xs
     | v => if truthy v then .arr [v] else .arr [])
  let d2 := d1.set "readingDuration" (data.get "finalReadingDuration")
  let d3 := d2.set "timestamp" (.num now)
  let d4 := d3.set "consentAgreed"
    (.bool (jsToLower (jsString (data.get "consentAgreed")) == "true"))
  d4.del "finalReadingDuration"

/-- The `responses` collection plus the ObjectId generator (modelled as a
counter). -/
structure MongoStore where
  docs : List Obj
  nextId : Int
deriving DecidableEq

def mongoEmptyStore : MongoStore := ⟨[], 1⟩

/-- `insertOne`: generates a fresh `_id` when the document carries none,
appends the document, and reports `insertedId`. -/
def mongoInsertOne (s : MongoStore) (doc : Obj) : MongoStore × JVal :=
  if doc.hasKey "_id" then (⟨s.docs ++ [doc], s.nextId⟩, doc.get "_id")
  else (⟨s.docs ++ [doc.set "_id" (.num s.nextId)], s.nextId + 1⟩, .num s.nextId)

/-- The whole MongoDB submit: build `docToInsert` and insert it. -/
def mongoSubmit (s : MongoStore) (data : Obj) (now : Int) : MongoStore × JVal :=
  mongoInsertOne s (mongoDocToInsert data now)

/-- The MongoDB `POST /api/submit` handler as a function of the insert
outcome: the catch branch appends `err.message` to the 500 body. -/
def mongoSubmitResponse : Except String JVal → Nat × Obj
  | .error e =>
      (500, [("message", .str ("Server error during submission: " ++ e))])
  | .ok insertedId =>
      (201, [("message", .str "Survey submitted successfully!"),
             ("id", insertedId)])

/-- `finalRow` built by the MongoDB `GET /api/results` map: spread of the
stored row with `id := row._id` and `finalReadingDuration :=
row.readingDuration`, then `_id` and `readingDuration` deleted. -/
def mongoProcessRow (row : Obj) : Obj :=
  let finalRow :=
    (row.set "id" (row.get "_id")).set "finalReadingDuration"
      (row.get "readingDuration")
  (finalRow.del "_id").del "readingDuration"

/-- `find(\x7b\x7d).sort(\x7b timestamp: -1 \x7d).toArray()`. -/
def mongoFind (s : MongoStore) : List Obj := sortDesc tsKey s.docs

/-- Successful `GET /api/results` of the MongoDB variant: mapped rows. -/
def mongoResultsRows (s : MongoStore) : List Obj :=
  (mongoFind s).map mongoProcessRow

/-- The MongoDB `GET /api/results` handler as a function of the find
outcome. -/
def mongoResultsResponse : Except String (List Obj) → Nat × RespBody
  | .error e =>
      (500, .objBody [("message", .str ("Server error fetching results: " ++ e))])
  | .ok results => (200, .arrBody (results.map mongoProcessRow))

/-! ## Submit-then-fetch cycles -/

/-- One submit into an empty SQLite database followed by a fetch (empty
list when the insert failed and no row was stored). -/
def sqliteCycleRows (data : Obj) (now : Int) : List Obj :=
  match sqliteRun sqliteEmptyDB data now with
  | .error _ => []
  | .ok (db', _) => sqliteResultsRows db'

/-- One submit into an empty MongoDB collection followed by a fetch. -/
def mongoCycleRows (data : Obj) (now : Int) : List Obj :=
  mongoResultsRows (mongoSubmit mongoEmptyStore data now).1

/-- Characters inside the modelled JSON fragment: printable, or one of the
escaped control characters. -/
def goodChar (c : Char) : Bool :=
  decide (32 ≤ c.toNat) || c = '\n' || c = '\t' || c = '\r'

/-- Whether the SQLite insert can store the payload (the only constraint in
the schema is `gradeLevel TEXT NOT NULL`). -/
def gradeOk (data : Obj) : Prop := bindVal (data.get "gradeLevel") ≠ .null

instance (data : Obj) : Decidable (gradeOk data) := by
  unfold gradeOk; infer_instance

/-- A sequence of `POST /api/submit` requests against the SQLite variant:
each element is a payload with the server time of its request (failed
inserts store nothing). -/
def sqliteSubmitSeq : SqliteDB → List (Obj × Int) → SqliteDB
  | db, [] => db
  | db, (data, now) :: rest =>
    match sqliteRun db data now with
    | .error _ => sqliteSubmitSeq db rest
    | .ok (db', _) => sqliteSubmitSeq db' rest

/-- A sequence of `POST /api/submit` requests against the MongoDB variant. -/
def mongoSubmitSeq : MongoStore → List (Obj × Int) → MongoStore
  | s, [] => s
  | s, (data, now) :: rest => mongoSubmitSeq (mongoSubmit s data now).1 rest

/-! ## Witness payloads and rows (concrete instantiations) -/

def w1data : Obj := [("gradeLevel", .str "g8"), ("consentAgreed", .str "True")]

def w2data : Obj := [("gradeLevel", .str "g8"), ("q1_c", .arr [.str "a", .str "b"])]

def w3data : Obj := [("gradeLevel", .str "g5"), ("finalReadingDuration", .num 42)]

def w4seq : List (Obj × Int) :=
  [([("gradeLevel", .str "g7")], 1), ([("gradeLevel", .str "g8")], 2)]

def w7row : Obj := sqliteNewRow [("gradeLevel", .str "g"), ("q1_a", .str "x")] 1 7

def w8data : Obj := [("gradeLevel", .str "g6")]

def w9data : Obj := [("consentAgreed", .str "true")]

def w10row : Obj :=
  [("id", .num 3), ("consentAgreed", .str "true"), ("q1_c", .str "not json"),
   ("readingDuration", .num 9)]

/-! ## Basic facts about object member access -/

theorem Obj.get_set_self (o : Obj) (k : String) (v : JVal) :
    (o.set k v).get k = v := by
  induction o with
  | nil => simp [Obj.set, Obj.get]
  | cons p rest ih =>
      obtain ⟨k', v'⟩ := p
      by_cases h : k' = k <;> simp [Obj.set, Obj.get, h, ih]

theorem Obj.get_set_ne (o : Obj) (k k' : String) (v : JVal) (h : k ≠ k') :
    (o.set k v).get k' = o.get k' := by
  induction o with
  | nil => simp [Obj.set, Obj.get, h]
  | cons p rest ih =>
      obtain ⟨k₀, v₀⟩ := p
      by_cases h₀ : k₀ = k <;> simp [Obj.set, Obj.get, h₀, h, ih]

theorem Obj.get_del_self (o : Obj) (k : String) : (o.del k).get k = .undef := by
  induction o with
  | nil => simp [Obj.del, Obj.get]
  | cons p rest ih =>
      obtain ⟨k₀, v₀⟩ := p
      by_cases h₀ : k₀ = k <;> simp [Obj.del, Obj.get, h₀, ih]

theorem Obj.get_del_ne (o : Obj) (k k' : String) (h : k ≠ k') :
    (o.del k).get k' = o.get k' := by
  induction o with
  | nil => simp [Obj.del]
  | cons p rest ih =>
      obtain ⟨k₀, v₀⟩ := p
      by_cases h₀ : k₀ = k
      · subst h₀
        simp [Obj.del, Obj.get, h, ih]
      · simp [Obj.del, Obj.get, h₀, ih]

theorem Obj.hasKey_set_self (o : Obj) (k : String) (v : JVal) :
    (o.set k v).hasKey k = true := by
  induction o with
  | nil => simp [Obj.set, Obj.hasKey]
  | cons p rest ih =>
      obtain ⟨k₀, v₀⟩ := p
      by_cases h₀ : k₀ = k <;> simp [Obj.set, Obj.hasKey, h₀, ih]

theorem Obj.hasKey_set_ne (o : Obj) (k k' : String) (v : JVal) (h : k ≠ k') :
    (o.set k v).hasKey k' = o.hasKey k' := by
  induction o with
  | nil => simp [Obj.set, Obj.hasKey, h]
  | cons p rest ih =>
      obtain ⟨k₀, v₀⟩ := p
      by_cases h₀ : k₀ = k <;> simp [Obj.set, Obj.hasKey, h₀, h, ih]

theorem Obj.hasKey_del_self (o : Obj) (k : String) :
    (o.del k).hasKey k = false := by
  induction o with
  | nil => simp [Obj.del, Obj.hasKey]
  | cons p rest ih =>
      obtain ⟨k₀, v₀⟩ := p
      by_cases h₀ : k₀ = k <;> simp [Obj.del, Obj.hasKey, h₀, ih]

theorem Obj.hasKey_del_ne (o : Obj) (k k' : String) (h : k ≠ k') :
    (o.del k).hasKey k' = o.hasKey k' := by
  induction o with
  | nil => simp [Obj.del]
  | cons p rest ih =>
      obtain ⟨k₀, v₀⟩ := p
      by_cases h₀ : k₀ = k
      · subst h₀
        simp [Obj.del, Obj.hasKey, h, ih]
      · simp [Obj.del, Obj.hasKey, h₀, ih]

theorem JVal.beq_eq_decide (a b : JVal) : (a == b) = decide (a = b) := by
  by_cases h : a = b
  · subst h
    simp only [decide_True]
    exact (JVal.beq_iff a a).2 rfl
  · have hb : JVal.beq a b ≠ true := fun hb => h ((JVal.beq_iff a b).1 hb)
    simp only [BEq.beq]
    rw [Bool.eq_false_iff.2 hb, eq_comm, decide_eq_false_iff_not]
    exact h

/-! ## Round-trip facts for the modelled JSON fragment -/

theorem skipWs_cons (c : Char) (l : List Char) (h : isWs c = false) :
    skipWs (c :: l) = c :: l := by
  simp [skipWs, h]

theorem parseStrBody_escBody (cs : List Char) (rest : List Char)
    (h : cs.all goodChar = true) :
    parseStrBody (escBody cs ++ '"' :: rest) = some (cs, rest) := by
  unfold parseStrBody
  induction cs with
  | nil => simp [escBody, parseStrBodySt]
  | cons c cs ih =>
    rw [List.all_cons, Bool.and_eq_true] at h
    have hgc := h.1
    have ihs := ih h.2
    by_cases h1 : c = '"'
    · subst h1
      simp [escBody, escChar, parseStrBodySt, escDecode, ihs]
    · by_cases h2 : c = '\\'
      · subst h2
        simp [escBody, escChar, parseStrBodySt, escDecode, ihs]
      · by_cases h3 : c = '\n'
        · subst h3
          simp [escBody, escChar, parseStrBodySt, escDecode, ihs]
        · by_cases h4 : c = '\t'
          · subst h4
            simp [escBody, escChar, parseStrBodySt, escDecode, ihs]
          · by_cases h5 : c = '\r'
            · subst h5
              simp [escBody, escChar, parseStrBodySt, escDecode, ihs]
            · have hgood : 32 ≤ c.toNat ∨ c = '\n' ∨ c = '\t' ∨ c = '\r' := by
                have hx := hgc
                unfold goodChar at hx
                simpa [or_assoc] using hx
              have hbig : ¬ c.toNat < 32 := by
                rcases hgood with h' | h' | h' | h'
                · omega
                · exact absurd h' h3
                · exact absurd h' h4
                · exact absurd h' h5
              simp [escBody, escChar, h1, h2, h3, h4, h5,
                parseStrBodySt, hbig, ihs]

theorem parseVal_quoted (fuel : Nat) (s : String) (rest : List Char)
    (h : s.data.all goodChar = true) :
    parseVal (fuel + 1) ('"' :: (escBody s.data ++ '"' :: rest))
      = some (.str s, rest) := by
  have hws : isWs '"' = false := by decide
  simp [parseVal, skipWs_cons _ _ hws, parseStrBody_escBody _ _ h]

theorem parseElems_succ (fuel : Nat) (cs : List Char) :
    parseElems (fuel + 1) cs =
      match parseVal fuel cs with
      | none => none
      | some (v, rest) =>
        match skipWs rest with
        | ',' :: rest' =>
          match parseElems fuel rest' with
          | none => none
          | some (vs, rest'') => some (v :: vs, rest'')
        | ']' :: rest' => some ([v], rest')
        | _ => none := rfl

theorem parseElems_quoted (ss : List String) :
    ∀ (s : String) (fuel : Nat) (rest : List Char), ss.length + 2 ≤ fuel →
    s.data.all goodChar = true → (∀ t ∈ ss, t.data.all goodChar = true) →
    parseElems fuel
      ('"' :: (escBody s.data ++ '"' :: (stringifyElems (ss.map .str) ++ ']' :: rest)))
      = some (.str s :: ss.map JVal.str, rest) := by
  induction ss with
  | nil =>
    intro s fuel rest hf hs _
    obtain ⟨f, rfl⟩ : ∃ f, fuel = f + 1 := ⟨fuel - 1, by omega⟩
    obtain ⟨f', rfl⟩ : ∃ f', f = f' + 1 := ⟨f - 1, by omega⟩
    have h1 := parseVal_quoted f' s (']' :: rest) hs
    have hws : isWs ']' = false := by decide
    rw [parseElems_succ]
    simp [stringifyElems, h1, skipWs_cons _ _ hws]
  | cons t ss ih =>
    intro s fuel rest hf hs hts
    obtain ⟨f, rfl⟩ : ∃ f, fuel = f + 1 := ⟨fuel - 1, by omega⟩
    have hf' : ss.length + 2 ≤ f := by simp at hf; omega
    obtain ⟨f', rfl⟩ : ∃ f', f = f' + 1 := ⟨f - 1, by omega⟩
    have ht : t.data.all goodChar = true := hts t (by simp)
    have hts' : ∀ u ∈ ss, u.data.all goodChar = true := fun u hu => hts u (by simp [hu])
    have h1 := parseVal_quoted f' s
      (',' :: ('"' :: (escBody t.data ++ '"' :: (stringifyElems (ss.map .str) ++ ']' :: rest)))) hs
    have h2 := ih t (f' + 1) rest hf' ht hts'
    have hws : isWs ',' = false := by decide
    rw [parseElems_succ]
    simp only [List.map_cons, stringifyElems, stringifyChars, List.cons_append,
      List.append_assoc, List.singleton_append, List.nil_append] at h1 ⊢
    rw [h1]
    simp only [skipWs_cons _ _ hws]
    rw [h2]

theorem parseVal_strArr (ss : List String) (fuel : Nat) (rest : List Char)
    (hf : ss.length + 2 ≤ fuel) (hg : ∀ t ∈ ss, t.data.all goodChar = true) :
    parseVal fuel (stringifyChars (.arr (ss.map .str)) ++ rest)
      = some (.arr (ss.map .str), rest) := by
  obtain ⟨f, rfl⟩ : ∃ f, fuel = f + 1 := ⟨fuel - 1, by omega⟩
  cases ss with
  | nil =>
    have hws : isWs '[' = false := by decide
    have hws2 : isWs ']' = false := by decide
    simp [stringifyChars, parseVal, skipWs_cons _ _ hws, skipWs_cons _ _ hws2]
  | cons s ss' =>
    have hf' : ss'.length + 2 ≤ f := by simp at hf; omega
    have hs : s.data.all goodChar = true := hg s (by simp)
    have hg' : ∀ t ∈ ss', t.data.all goodChar = true := fun u hu => hg u (by simp [hu])
    have h2 := parseElems_quoted ss' s f rest hf' hs hg'
    have hws : isWs '[' = false := by decide
    have hws2 : isWs '"' = false := by decide
    simp only [List.map_cons, stringifyChars, List.cons_append,
      List.append_assoc, List.singleton_append]
    simp [parseVal, skipWs_cons _ _ hws, skipWs_cons _ _ hws2, h2]

theorem stringifyElems_length_ge (ss : List String) :
    ss.length ≤ (stringifyElems (ss.map .str)).length := by
  induction ss with
  | nil => simp [stringifyElems]
  | cons t ss ih => simp [stringifyElems]; omega

theorem stringifyArr_length (ss : List String) :
    ss.length + 2 ≤ (stringifyChars (.arr (ss.map .str))).length := by
  cases ss with
  | nil => simp [stringifyChars]
  | cons s ss' =>
    have h1 := stringifyElems_length_ge ss'
    simp [stringifyChars]
    omega

theorem jsonParse_of_parseVal (l : List Char) (v : JVal) (bound : Nat)
    (hb : bound ≤ l.length + 1)
    (h : ∀ fuel, bound ≤ fuel → parseVal fuel l = some (v, [])) :
    jsonParse (String.mk l) = some v := by
  unfold jsonParse
  have h2 := h (l.length + 1) (by omega)
  simp [h2, skipWs]

theorem jsonParse_stringify_str (s : String) (h : s.data.all goodChar = true) :
    jsonParse (jsonStringify (.str s)) = some (.str s) := by
  unfold jsonStringify
  apply jsonParse_of_parseVal _ _ 1 (by omega)
  intro fuel hfuel
  obtain ⟨f, rfl⟩ : ∃ f, fuel = f + 1 := ⟨fuel - 1, by omega⟩
  have h1 := parseVal_quoted f s [] h
  simpa [stringifyChars] using h1

theorem jsonParse_stringify_strList (ss : List String)
    (hg : ∀ t ∈ ss, t.data.all goodChar = true) :
    jsonParse (jsonStringify (.arr (ss.map .str))) = some (.arr (ss.map .str)) := by
  unfold jsonStringify
  apply jsonParse_of_parseVal _ _ (ss.length + 2) (by have := stringifyArr_length ss; omega)
  intro fuel hfuel
  have h1 := parseVal_strArr ss fuel [] hfuel hg
  simpa using h1

/-! ## Ordering lemmas -/

theorem insertDesc_last (key : Obj → Int) (x : Obj) (l : List Obj)
    (h : ∀ y ∈ l, key x < key y) : insertDesc key x l = l ++ [x] := by
  induction l with
  | nil => simp [insertDesc]
  | cons y ys ih =>
    have hy : key x < key y := h y (by simp)
    have hys : ∀ z ∈ ys, key x < key z := fun z hz => h z (by simp [hz])
    simp [insertDesc, Int.not_lt.2 (Int.le_of_lt hy), ih hys]

theorem sortDesc_strictIncr (key : Obj → Int) (l : List Obj)
    (h : l.Pairwise (fun a b => key a < key b)) :
    sortDesc key l = l.reverse := by
  induction l with
  | nil => simp [sortDesc]
  | cons x xs ih =>
    rw [List.pairwise_cons] at h
    have hx : ∀ y ∈ xs.reverse, key x < key y := fun y hy =>
      h.1 y (List.mem_reverse.1 hy)
    simp [sortDesc, ih h.2, insertDesc_last key x xs.reverse hx]

/-! ## Field access through the MongoDB document construction -/

theorem mongoDocToInsert_get_q1c (data : Obj) (now : Int) :
    (mongoDocToInsert data now).get "q1_c" =
      (match data.get "q1_c" with
       | .arr xs => .arr xs
       | v => if truthy v then .arr [v] else .arr []) := by
  unfold mongoDocToInsert
  rw [Obj.get_del_ne _ _ _ (by decide), Obj.get_set_ne _ _ _ _ (by decide),
    Obj.get_set_ne _ _ _ _ (by decide), Obj.get_set_ne _ _ _ _ (by decide),
    Obj.get_set_self]

theorem mongoDocToInsert_get_rd (data : Obj) (now : Int) :
    (mongoDocToInsert data now).get "readingDuration" =
      data.get "finalReadingDuration" := by
  unfold mongoDocToInsert
  rw [Obj.get_del_ne _ _ _ (by decide), Obj.get_set_ne _ _ _ _ (by decide),
    Obj.get_set_ne _ _ _ _ (by decide), Obj.get_set_self]

theorem mongoDocToInsert_get_timestamp (data : Obj) (now : Int) :
    (mongoDocToInsert data now).get "timestamp" = .num now := by
  unfold mongoDocToInsert
  rw [Obj.get_del_ne _ _ _ (by decide), Obj.get_set_ne _ _ _ _ (by decide),
    Obj.get_set_self]

theorem mongoDocToInsert_get_consent (data : Obj) (now : Int) :
    (mongoDocToInsert data now).get "consentAgreed" =
      .bool (jsToLower (jsString (data.get "consentAgreed")) == "true") := by
  unfold mongoDocToInsert
  rw [Obj.get_del_ne _ _ _ (by decide), Obj.get_set_self]

theorem mongoDocToInsert_get_frd (data : Obj) (now : Int) :
    (mongoDocToInsert data now).get "finalReadingDuration" = .undef := by
  unfold mongoDocToInsert
  rw [Obj.get_del_self]

theorem mongoDocToInsert_get_other (data : Obj) (now : Int) (k : String)
    (h1 : k ≠ "q1_c") (h2 : k ≠ "readingDuration") (h3 : k ≠ "timestamp")
    (h4 : k ≠ "consentAgreed") (h5 : k ≠ "finalReadingDuration") :
    (mongoDocToInsert data now).get k = data.get k := by
  unfold mongoDocToInsert
  rw [Obj.get_del_ne _ _ _ (fun h => h5 h.symm),
    Obj.get_set_ne _ _ _ _ (fun h => h4 h.symm),
    Obj.get_set_ne _ _ _ _ (fun h => h3 h.symm),
    Obj.get_set_ne _ _ _ _ (fun h => h2 h.symm),
    Obj.get_set_ne _ _ _ _ (fun h => h1 h.symm)]

theorem mongoDocToInsert_hasKey_id (data : Obj) (now : Int)
    (h : data.hasKey "_id" = false) :
    (mongoDocToInsert data now).hasKey "_id" = false := by
  unfold mongoDocToInsert
  rw [Obj.hasKey_del_ne _ _ _ (by decide), Obj.hasKey_set_ne _ _ _ _ (by decide),
    Obj.hasKey_set_ne _ _ _ _ (by decide), Obj.hasKey_set_ne _ _ _ _ (by decide),
    Obj.hasKey_set_ne _ _ _ _ (by decide), h]

/-! ## Field access through the MongoDB result row processing -/

theorem mongoProcessRow_get_id (row : Obj) :
    (mongoProcessRow row).get "id" = row.get "_id" := by
  unfold mongoProcessRow
  rw [Obj.get_del_ne _ _ _ (by decide), Obj.get_del_ne _ _ _ (by decide),
    Obj.get_set_ne _ _ _ _ (by decide), Obj.get_set_self]

theorem mongoProcessRow_get_frd (row : Obj) :
    (mongoProcessRow row).get "finalReadingDuration" =
      row.get "readingDuration" := by
  unfold mongoProcessRow
  rw [Obj.get_del_ne _ _ _ (by decide), Obj.get_del_ne _ _ _ (by decide),
    Obj.get_set_self]

theorem mongoProcessRow_get_underscoreId (row : Obj) :
    (mongoProcessRow row).get "_id" = .undef := by
  unfold mongoProcessRow
  rw [Obj.get_del_ne _ _ _ (by decide), Obj.get_del_self]

theorem mongoProcessRow_get_rd (row : Obj) :
    (mongoProcessRow row).get "readingDuration" = .undef := by
  unfold mongoProcessRow
  rw [Obj.get_del_self]

theorem mongoProcessRow_get_other (row : Obj) (k : String)
    (h1 : k ≠ "id") (h2 : k ≠ "finalReadingDuration") (h3 : k ≠ "_id")
    (h4 : k ≠ "readingDuration") :
    (mongoProcessRow row).get k = row.get k := by
  unfold mongoProcessRow
  rw [Obj.get_del_ne _ _ _ (fun h => h4 h.symm),
    Obj.get_del_ne _ _ _ (fun h => h3 h.symm),
    Obj.get_set_ne _ _ _ _ (fun h => h2 h.symm),
    Obj.get_set_ne _ _ _ _ (fun h => h1 h.symm)]

theorem mongoProcessRow_hasKey_id (row : Obj) :
    (mongoProcessRow row).hasKey "id" = true := by
  unfold mongoProcessRow
  rw [Obj.hasKey_del_ne _ _ _ (by decide), Obj.hasKey_del_ne _ _ _ (by decide),
    Obj.hasKey_set_ne _ _ _ _ (by decide), Obj.hasKey_set_self]

theorem mongoProcessRow_hasKey_frd (row : Obj) :
    (mongoProcessRow row).hasKey "finalReadingDuration" = true := by
  unfold mongoProcessRow
  rw [Obj.hasKey_del_ne _ _ _ (by decide), Obj.hasKey_del_ne _ _ _ (by decide),
    Obj.hasKey_set_self]

theorem mongoProcessRow_hasKey_underscoreId (row : Obj) :
    (mongoProcessRow row).hasKey "_id" = false := by
  unfold mongoProcessRow
  rw [Obj.hasKey_del_ne _ _ _ (by decide), Obj.hasKey_del_self]

theorem mongoProcessRow_hasKey_rd (row : Obj) :
    (mongoProcessRow row).hasKey "readingDuration" = false := by
  unfold mongoProcessRow
  rw [Obj.hasKey_del_self]

/-! ## Field access through the SQLite row construction and fetch map -/

theorem sqliteNewRow_get (data : Obj) (id now : Int) :
    (sqliteNewRow data id now).get "id" = .num id
    ∧ (sqliteNewRow data id now).get "consentAgreed" = .str (consentValue data)
    ∧ (sqliteNewRow data id now).get "q1_c" = .str (q1cJson data)
    ∧ (sqliteNewRow data id now).get "readingDuration"
        = bindVal (data.get "finalReadingDuration")
    ∧ (sqliteNewRow data id now).get "timestamp" = .num now
    ∧ (sqliteNewRow data id now).get "gradeLevel" = bindVal (data.get "gradeLevel")
    ∧ (sqliteNewRow data id now).hasKey "id" = true
    ∧ (sqliteNewRow data id now).hasKey "_id" = false := by
  refine ⟨?_, ?_, ?_, ?_, ?_, ?_, ?_, ?_⟩ <;> rfl

theorem sqliteFetchRow_get_q1c (row : Obj) :
    (sqliteFetchRow row).get "q1_c" =
      (match jsonParse (jsString (row.get "q1_c")) with
       | some v => v
       | none => .arr []) := by
  unfold sqliteFetchRow
  rw [Obj.get_del_ne _ _ _ (by decide), Obj.get_set_ne _ _ _ _ (by decide),
    Obj.get_set_ne _ _ _ _ (by decide), Obj.get_set_self]

theorem sqliteFetchRow_get_consent (row : Obj) :
    (sqliteFetchRow row).get "consentAgreed" =
      .bool (row.get "consentAgreed" == .str "true"
        || row.get "consentAgreed" == .str "1"
        || row.get "consentAgreed" == .bool true) := by
  unfold sqliteFetchRow
  rw [Obj.get_del_ne _ _ _ (by decide), Obj.get_set_ne _ _ _ _ (by decide),
    Obj.get_set_self, Obj.get_set_ne _ _ _ _ (by decide)]

theorem sqliteFetchRow_get_frd (row : Obj) :
    (sqliteFetchRow row).get "finalReadingDuration" =
      row.get "readingDuration" := by
  unfold sqliteFetchRow
  rw [Obj.get_del_ne _ _ _ (by decide), Obj.get_set_self,
    Obj.get_set_ne _ _ _ _ (by decide), Obj.get_set_ne _ _ _ _ (by decide)]

theorem sqliteFetchRow_get_rd (row : Obj) :
    (sqliteFetchRow row).get "readingDuration" = .undef := by
  unfold sqliteFetchRow
  rw [Obj.get_del_self]

theorem sqliteFetchRow_get_other (row : Obj) (k : String)
    (h1 : k ≠ "q1_c") (h2 : k ≠ "consentAgreed")
    (h3 : k ≠ "finalReadingDuration") (h4 : k ≠ "readingDuration") :
    (sqliteFetchRow row).get k = row.get k := by
  unfold sqliteFetchRow
  rw [Obj.get_del_ne _ _ _ (fun h => h4 h.symm),
    Obj.get_set_ne _ _ _ _ (fun h => h3 h.symm),
    Obj.get_set_ne _ _ _ _ (fun h => h2 h.symm),
    Obj.get_set_ne _ _ _ _ (fun h => h1 h.symm)]

theorem sqliteFetchRow_hasKey_frd (row : Obj) :
    (sqliteFetchRow row).hasKey "finalReadingDuration" = true := by
  unfold sqliteFetchRow
  rw [Obj.hasKey_del_ne _ _ _ (by decide), Obj.hasKey_set_self]

theorem sqliteFetchRow_hasKey_rd (row : Obj) :
    (sqliteFetchRow row).hasKey "readingDuration" = false := by
  unfold sqliteFetchRow
  rw [Obj.hasKey_del_self]

theorem sqliteFetchRow_hasKey_other (row : Obj) (k : String)
    (h1 : k ≠ "q1_c") (h2 : k ≠ "consentAgreed")
    (h3 : k ≠ "finalReadingDuration") (h4 : k ≠ "readingDuration") :
    (sqliteFetchRow row).hasKey k = row.hasKey k := by
  unfold sqliteFetchRow
  rw [Obj.hasKey_del_ne _ _ _ (fun h => h4 h.symm),
    Obj.hasKey_set_ne _ _ _ _ (fun h => h3 h.symm),
    Obj.hasKey_set_ne _ _ _ _ (fun h => h2 h.symm),
    Obj.hasKey_set_ne _ _ _ _ (fun h => h1 h.symm)]

/-! ## Submit-then-fetch cycle shapes -/

theorem sqliteCycleRows_eq (data : Obj) (now : Int) (h : gradeOk data) :
    sqliteCycleRows data now = [sqliteFetchRow (sqliteNewRow data 1 now)] := by
  unfold sqliteCycleRows sqliteRun
  rw [if_neg h]
  simp [sqliteResultsRows, sqliteSelect, sqliteEmptyDB, sortDesc, insertDesc]

theorem mongoCycleRows_eq (data : Obj) (now : Int) :
    ∃ d : Obj, mongoCycleRows data now = [mongoProcessRow d]
      ∧ (∀ k, k ≠ "_id" → d.get k = (mongoDocToInsert data now).get k)
      ∧ ((mongoDocToInsert data now).hasKey "_id" = false →
          d.get "_id" = .num 1) := by
  unfold mongoCycleRows mongoSubmit mongoInsertOne
  by_cases h : (mongoDocToInsert data now).hasKey "_id" = true
  · refine ⟨mongoDocToInsert data now, ?_, ?_, ?_⟩
    · rw [if_pos h]
      simp [mongoResultsRows, mongoFind, mongoEmptyStore, sortDesc, insertDesc]
    · intro k _; rfl
    · intro hc; rw [h] at hc; cases hc
  · rw [Bool.not_eq_true] at h
    refine ⟨(mongoDocToInsert data now).set "_id" (.num 1), ?_, ?_, ?_⟩
    · rw [if_neg (by simp [h])]
      simp [mongoResultsRows, mongoFind, mongoEmptyStore, sortDesc, insertDesc]
    · intro k hk
      exact Obj.get_set_ne _ _ _ _ (fun h' => hk h'.symm)
    · intro _; exact Obj.get_set_self _ _ _

theorem idKey_newRow (data : Obj) (id now : Int) :
    idKey (sqliteNewRow data id now) = id := rfl

theorem sqliteSubmitSeq_invariant :
    ∀ (ps : List (Obj × Int)) (db : SqliteDB),
    (∀ r ∈ db.rows, idKey r < db.nextId) →
    db.rows.Pairwise (fun a b => idKey a < idKey b) →
    (∀ r ∈ (sqliteSubmitSeq db ps).rows, idKey r < (sqliteSubmitSeq db ps).nextId)
    ∧ (sqliteSubmitSeq db ps).rows.Pairwise (fun a b => idKey a < idKey b) := by
  intro ps
  induction ps with
  | nil => intro db h1 h2; exact ⟨h1, h2⟩
  | cons p rest ih =>
    intro db h1 h2
    obtain ⟨data, now⟩ := p
    by_cases hg : bindVal (data.get "gradeLevel") = .null
    · simp only [sqliteSubmitSeq, sqliteRun, if_pos hg]
      exact ih db h1 h2
    · simp only [sqliteSubmitSeq, sqliteRun, if_neg hg]
      apply ih
      · intro r hr
        simp only [List.mem_append, List.mem_singleton] at hr
        rcases hr with hr | hr
        · have := h1 r hr
          show idKey r < db.nextId + 1
          omega
        · subst hr
          rw [idKey_newRow]
          show db.nextId < db.nextId + 1
          omega
      · rw [List.pairwise_append]
        refine ⟨h2, List.pairwise_singleton _ _, ?_⟩
        intro a ha b hb
        simp only [List.mem_singleton] at hb
        subst hb
        rw [idKey_newRow]
        exact h1 a ha

theorem tsKey_mongoDoc (data : Obj) (now : Int) :
    tsKey (mongoDocToInsert data now) = now := by
  unfold tsKey
  rw [mongoDocToInsert_get_timestamp]

theorem tsKey_mongoDoc_withId (data : Obj) (now : Int) (x : JVal) :
    tsKey ((mongoDocToInsert data now).set "_id" x) = now := by
  unfold tsKey
  rw [Obj.get_set_ne _ _ _ _ (by decide), mongoDocToInsert_get_timestamp]

theorem mongoSubmitSeq_ts :
    ∀ (ps : List (Obj × Int)) (s : MongoStore),
    (mongoSubmitSeq s ps).docs.map tsKey = s.docs.map tsKey ++ ps.map (·.2) := by
  intro ps
  induction ps with
  | nil => intro s; simp [mongoSubmitSeq]
  | cons p rest ih =>
    intro s
    obtain ⟨data, now⟩ := p
    simp only [mongoSubmitSeq, mongoSubmit, mongoInsertOne]
    by_cases h : (mongoDocToInsert data now).hasKey "_id" = true
    · rw [if_pos h]
      simp [ih, tsKey_mongoDoc]
    · rw [if_neg h]
      simp [ih, tsKey_mongoDoc_withId]

/-- C4 infrastructure: from an empty store, the fetched list is the reverse
of the insertion-ordered store contents. -/
theorem sqliteResults_reverse (ps : List (Obj × Int)) :
    sqliteResultsRows (sqliteSubmitSeq sqliteEmptyDB ps)
      = (sqliteSubmitSeq sqliteEmptyDB ps).rows.reverse.map sqliteFetchRow := by
  have h := sqliteSubmitSeq_invariant ps sqliteEmptyDB
    (by intro r hr; simp [sqliteEmptyDB] at hr) (by simp [sqliteEmptyDB])
  unfold sqliteResultsRows sqliteSelect
  rw [sortDesc_strictIncr idKey _ h.2]

theorem mongoResults_reverse (ps : List (Obj × Int))
    (h : (ps.map (·.2)).Pairwise (· < ·)) :
    mongoResultsRows (mongoSubmitSeq mongoEmptyStore ps)
      = (mongoSubmitSeq mongoEmptyStore ps).docs.reverse.map mongoProcessRow := by
  have hts := mongoSubmitSeq_ts ps mongoEmptyStore
  have hpair : ((mongoSubmitSeq mongoEmptyStore ps).docs.map tsKey).Pairwise (· < ·) := by
    rw [hts]; simpa [mongoEmptyStore] using h
  rw [List.pairwise_map] at hpair
  unfold mongoResultsRows mongoFind
  rw [sortDesc_strictIncr tsKey _ hpair]

/-- C5 counterexample: in the SQLite variant a storage failure during
submit yields a 500 whose body carries a fixed message that does not
contain the underlying failure message (here `"disk I/O error"`), so the
claim "the body's message contains the underlying storage failure message"
is false as stated. -/
theorem storage_error_counterexample :
    (sqliteSubmitResponse (.error "disk I/O error")).1 = 500
    ∧ ((sqliteSubmitResponse (.error "disk I/O error")).2).get "message"
        = .str "Server error during submission."
    ∧ ¬ ("disk I/O error".data <:+: "Server error during submission.".data) :=
  ⟨rfl, rfl, by decide⟩

/-- C5 (amended): whenever the storage collaborator reports a failure
during submit or fetch, both variants respond with HTTP 500 and a response
is always produced (the modelled handlers are total, no crash).  The
MongoDB variant's body message contains the underlying failure message;
the SQLite variant's 500 body is a fixed message without it. -/
theorem storage_error_500_amended (e : String) :
    ((mongoSubmitResponse (.error e)).1 = 500
      ∧ ((mongoSubmitResponse (.error e)).2).get "message"
          = .str ("Server error during submission: " ++ e)
      ∧ e.data <:+: ("Server error during submission: " ++ e).data)
    ∧ ((mongoResultsResponse (.error e)).1 = 500
      ∧ (mongoResultsResponse (.error e)).2
          = .objBody [("message", .str ("Server error fetching results: " ++ e))]
      ∧ e.data <:+: ("Server error fetching results: " ++ e).data)
    ∧ (sqliteSubmitResponse (.error e)).1 = 500
    ∧ (sqliteResultsResponse (.error e)).1 = 500 := by
  refine ⟨⟨rfl, rfl, ?_⟩, ⟨rfl, rfl, ?_⟩, rfl, rfl⟩
  · exact ⟨"Server error during submission: ".data, [],
      by simp [String.data_append]⟩
  · exact ⟨"Server error fetching results: ".data, [],
      by simp [String.data_append]⟩

/-- C6: the stored timestamp is assigned by the server at submission time
and is independent of any client-supplied `timestamp` field: the MongoDB
document construction overwrites it with the server clock, and the SQLite
INSERT never binds it (the column defaults to the server clock); a payload
differing only in a client `timestamp` field produces the same stored
record / the same insert outcome. -/
theorem timestamp_server_assigned (data : Obj) (v : JVal) (now : Int)
    (db : SqliteDB) :
    ((mongoDocToInsert data now).get "timestamp" = .num now
      ∧ ∀ k, (mongoDocToInsert (data.set "timestamp" v) now).get k
           = (mongoDocToInsert data now).get k)
    ∧ (sqliteRun db (data.set "timestamp" v) now = sqliteRun db data now
      ∧ ∀ id : Int, (sqliteNewRow data id now).get "timestamp" = .num now) := by
  have hget : ∀ k : String, k ≠ "timestamp" →
      (data.set "timestamp" v).get k = data.get k := fun k hk =>
    Obj.get_set_ne _ _ _ _ (fun h => hk h.symm)
  refine ⟨⟨mongoDocToInsert_get_timestamp data now, ?_⟩, ?_, ?_⟩
  · intro k
    by_cases h1 : k = "q1_c"
    · subst h1
      rw [mongoDocToInsert_get_q1c, mongoDocToInsert_get_q1c, hget _ (by decide)]
    · by_cases h2 : k = "readingDuration"
      · subst h2
        rw [mongoDocToInsert_get_rd, mongoDocToInsert_get_rd, hget _ (by decide)]
      · by_cases h3 : k = "timestamp"
        · subst h3
          rw [mongoDocToInsert_get_timestamp, mongoDocToInsert_get_timestamp]
        · by_cases h4 : k = "consentAgreed"
          · subst h4
            rw [mongoDocToInsert_get_consent, mongoDocToInsert_get_consent,
              hget _ (by decide)]
          · by_cases h5 : k = "finalReadingDuration"
            · subst h5
              rw [mongoDocToInsert_get_frd, mongoDocToInsert_get_frd]
            · rw [mongoDocToInsert_get_other _ _ _ h1 h2 h3 h4 h5,
                mongoDocToInsert_get_other _ _ _ h1 h2 h3 h4 h5, hget _ h3]
  · have e1 := hget "gradeLevel" (by decide)
    have e2 := hget "consentAgreed" (by decide)
    have e3 := hget "q1_a" (by decide)
    have e4 := hget "q1_b" (by decide)
    have e5 := hget "q1_c" (by decide)
    have e6 := hget "q1_d" (by decide)
    have e7 := hget "q1_e" (by decide)
    have e8 := hget "q1_f" (by decide)
    have e9 := hget "q2_a" (by decide)
    have e10 := hget "q2_b" (by decide)
    have e11 := hget "q2_c" (by decide)
    have e12 := hget "finalReadingDuration" (by decide)
    have e13 := hget "quiz_q1" (by decide)
    have e14 := hget "quiz_q2" (by decide)
    have e15 := hget "quiz_q3" (by decide)
    have e16 := hget "quiz_q4" (by decide)
    have e17 := hget "quiz_q5" (by decide)
    have e18 := hget "quiz_q6" (by decide)
    have e19 := hget "quiz_q7" (by decide)
    simp only [sqliteRun, sqliteNewRow, q1cJson, consentValue, e1, e2, e3, e4,
      e5, e6, e7, e8, e9, e10, e11, e12, e13, e14, e15, e16, e17, e18, e19]
  · intro id
    exact (sqliteNewRow_get data id now).2.2.2.2.1

/-- C7 counterexample: in the SQLite variant the stored `q1_c` field (JSON
text in the column) is not passed through unchanged by the results mapping:
it is decoded into an array, so "every other stored field is passed
through unchanged" fails. -/
theorem results_shape_counterexample :
    (sqliteNewRow [("gradeLevel", .str "g"), ("q1_c", .arr [.str "a"])] 1 7).hasKey
        "q1_c" = true
    ∧ (sqliteFetchRow
        (sqliteNewRow [("gradeLevel", .str "g"), ("q1_c", .arr [.str "a"])] 1 7)).get
          "q1_c"
      ≠ (sqliteNewRow [("gradeLevel", .str "g"), ("q1_c", .arr [.str "a"])] 1 7).get
          "q1_c" := by
  refine ⟨rfl, ?_⟩
  decide

/-- C7 (amended): every record returned by the results endpoint carries
`id` and `finalReadingDuration` and carries neither `_id` nor
`readingDuration`.  In the MongoDB variant every other stored field is
passed through unchanged; in the SQLite variant the same holds except that
`q1_c` is decoded from its JSON text and `consentAgreed` converted from
its TEXT encoding to a boolean. -/
theorem results_shape_amended :
    (∀ row : Obj,
      (mongoProcessRow row).hasKey "id" = true
      ∧ (mongoProcessRow row).hasKey "finalReadingDuration" = true
      ∧ (mongoProcessRow row).hasKey "_id" = false
      ∧ (mongoProcessRow row).hasKey "readingDuration" = false
      ∧ (mongoProcessRow row).get "id" = row.get "_id"
      ∧ (mongoProcessRow row).get "finalReadingDuration"
          = row.get "readingDuration"
      ∧ ∀ k, k ≠ "id" → k ≠ "finalReadingDuration" → k ≠ "_id" →
          k ≠ "readingDuration" → (mongoProcessRow row).get k = row.get k)
    ∧ (∀ row : Obj, row.hasKey "id" = true → row.hasKey "_id" = false →
      (sqliteFetchRow row).hasKey "id" = true
      ∧ (sqliteFetchRow row).hasKey "finalReadingDuration" = true
      ∧ (sqliteFetchRow row).hasKey "_id" = false
      ∧ (sqliteFetchRow row).hasKey "readingDuration" = false
      ∧ (sqliteFetchRow row).get "finalReadingDuration"
          = row.get "readingDuration"
      ∧ ∀ k, k ≠ "q1_c" → k ≠ "consentAgreed" → k ≠ "finalReadingDuration" →
          k ≠ "readingDuration" → (sqliteFetchRow row).get k = row.get k) := by
  constructor
  · intro row
    exact ⟨mongoProcessRow_hasKey_id row, mongoProcessRow_hasKey_frd row,
      mongoProcessRow_hasKey_underscoreId row, mongoProcessRow_hasKey_rd row,
      mongoProcessRow_get_id row, mongoProcessRow_get_frd row,
      fun k h1 h2 h3 h4 => mongoProcessRow_get_other row k h1 h2 h3 h4⟩
  · intro row hid hnoUid
    refine ⟨?_, sqliteFetchRow_hasKey_frd row, ?_,
      sqliteFetchRow_hasKey_rd row, sqliteFetchRow_get_frd row,
      fun k h1 h2 h3 h4 => sqliteFetchRow_get_other row k h1 h2 h3 h4⟩
    · rw [sqliteFetchRow_hasKey_other row "id" (by decide) (by decide)
        (by decide) (by decide)]
      exact hid
    · rw [sqliteFetchRow_hasKey_other row "_id" (by decide) (by decide)
        (by decide) (by decide)]
      exact hnoUid

/-- C8: on a successful insert the submit endpoint answers 201 with the
fixed success message and the id the store generated for the new record
(the SQLite `lastID`, the MongoDB `insertedId`); the id is nonzero when
the store's id counter is at least one, hence non-empty. -/
theorem submit_success_201 (db : SqliteDB) (store : MongoStore) (data : Obj)
    (now : Int) (hg : gradeOk data) (hid : data.hasKey "_id" = false)
    (h1 : 1 ≤ db.nextId) (h2 : 1 ≤ store.nextId) :
    (∃ db', sqliteRun db data now = .ok (db', db.nextId)
      ∧ (sqliteSubmitResponse (sqliteRun db data now)).1 = 201
      ∧ ((sqliteSubmitResponse (sqliteRun db data now)).2).get "message"
          = .str "Survey submitted successfully!"
      ∧ ((sqliteSubmitResponse (sqliteRun db data now)).2).get "id"
          = .num db.nextId
      ∧ db.nextId ≠ 0)
    ∧ (∃ store', mongoSubmit store data now = (store', .num store.nextId)
      ∧ store'.docs = store.docs
          ++ [(mongoDocToInsert data now).set "_id" (.num store.nextId)]
      ∧ (mongoSubmitResponse (.ok (mongoSubmit store data now).2)).1 = 201
      ∧ ((mongoSubmitResponse (.ok (mongoSubmit store data now).2)).2).get "message"
          = .str "Survey submitted successfully!"
      ∧ ((mongoSubmitResponse (.ok (mongoSubmit store data now).2)).2).get "id"
          = .num store.nextId
      ∧ store.nextId ≠ 0) := by
  have hrun : sqliteRun db data now
      = .ok (⟨db.rows ++ [sqliteNewRow data db.nextId now], db.nextId + 1⟩,
             db.nextId) := by
    unfold sqliteRun
    rw [if_neg hg]
  have hins : mongoSubmit store data now
      = (⟨store.docs ++ [(mongoDocToInsert data now).set "_id" (.num store.nextId)],
          store.nextId + 1⟩, .num store.nextId) := by
    unfold mongoSubmit mongoInsertOne
    rw [if_neg (by simp [mongoDocToInsert_hasKey_id data now hid])]
  constructor
  · refine ⟨_, hrun, ?_, ?_, ?_, by omega⟩ <;> rw [hrun] <;> rfl
  · refine ⟨_, hins, rfl, ?_, ?_, ?_, by omega⟩ <;> rw [hins] <;> rfl

/-- C9 counterexample: the SQLite schema declares `gradeLevel TEXT NOT
NULL`, so a payload missing `gradeLevel` does not succeed with 201: the
insert fails and the endpoint answers 500. -/
theorem no_validation_counterexample :
    (sqliteSubmitResponse
        (sqliteRun sqliteEmptyDB [("consentAgreed", .str "true")] 7)).1 = 500
    ∧ (sqliteSubmitResponse
        (sqliteRun sqliteEmptyDB [("consentAgreed", .str "true")] 7)).1 ≠ 201 := by
  exact ⟨rfl, by decide⟩

/-- C9 (amended): the endpoints themselves validate nothing.  The MongoDB
variant stores any payload (201, every member outside the five normalised
keys stored as submitted); the SQLite variant also validates nothing in
the handler, but the `gradeLevel TEXT NOT NULL` storage constraint turns a
payload whose `gradeLevel` binds NULL into a 500 storage error instead of
a 201. -/
theorem no_validation_amended (data : Obj) (now : Int) (store : MongoStore)
    (db : SqliteDB) :
    ((mongoSubmitResponse (.ok (mongoSubmit store data now).2)).1 = 201
      ∧ ∀ k, k ≠ "q1_c" → k ≠ "readingDuration" → k ≠ "timestamp" →
          k ≠ "consentAgreed" → k ≠ "finalReadingDuration" →
          (mongoDocToInsert data now).get k = data.get k)
    ∧ (gradeOk data → (sqliteSubmitResponse (sqliteRun db data now)).1 = 201)
    ∧ (¬ gradeOk data → (sqliteSubmitResponse (sqliteRun db data now)).1 = 500) := by
  refine ⟨⟨rfl, fun k h1 h2 h3 h4 h5 => mongoDocToInsert_get_other data now k h1 h2 h3 h4 h5⟩, ?_, ?_⟩
  · intro hg
    unfold sqliteRun
    rw [if_neg hg]
    rfl
  · intro hg
    have hg' : bindVal (data.get "gradeLevel") = .null := by
      unfold gradeOk at hg
      exact not_not.1 hg
    unfold sqliteRun
    rw [if_pos hg']
    rfl

/-- C10: a stored row whose `q1_c` column holds text that `JSON.parse`
rejects does not make the results endpoint fail: the record comes back
with `q1_c` as the empty list, every other field is produced exactly as it
would be with a well-formed column, and the endpoint still answers 200. -/
theorem q1c_parse_fallback (row : Obj) (s : String)
    (hq : row.get "q1_c" = .str s) (hbad : jsonParse s = none) :
    (sqliteFetchRow row).get "q1_c" = .arr []
    ∧ (∀ k, k ≠ "q1_c" →
        (sqliteFetchRow row).get k
          = (sqliteFetchRow (row.set "q1_c" (.str "[]"))).get k)
    ∧ ∀ rows : List Obj, (sqliteResultsResponse (.ok rows)).1 = 200 := by
  refine ⟨?_, ?_, fun rows => rfl⟩
  · rw [sqliteFetchRow_get_q1c, hq]
    show (match jsonParse (jsString (.str s)) with
          | some v => v
          | none => JVal.arr []) = .arr []
    rw [show jsString (.str s) = s from rfl, hbad]
  · intro k hk
    have hset : ∀ k', k' ≠ "q1_c" → (row.set "q1_c" (.str "[]")).get k' = row.get k' :=
      fun k' h => Obj.get_set_ne _ _ _ _ (fun h' => h h'.symm)
    by_cases h2 : k = "consentAgreed"
    · subst h2
      rw [sqliteFetchRow_get_consent, sqliteFetchRow_get_consent,
        hset _ (by decide)]
    · by_cases h3 : k = "finalReadingDuration"
      · subst h3
        rw [sqliteFetchRow_get_frd, sqliteFetchRow_get_frd, hset _ (by decide)]
      · by_cases h4 : k = "readingDuration"
        · subst h4
          rw [sqliteFetchRow_get_rd, sqliteFetchRow_get_rd]
        · rw [sqliteFetchRow_get_other _ _ hk h2 h3 h4,
            sqliteFetchRow_get_other _ _ hk h2 h3 h4, hset _ hk]

/-- C1 counterexample: submitting `consentAgreed = "TRUE"` (whose string
conversion equals `"true"` case-insensitively) through the SQLite variant
and fetching yields the boolean `false`, refuting the claimed equivalence
for that pipeline. -/
theorem consent_case_insensitive_counterexample :
    jsToLower (jsString (Obj.get
        [("gradeLevel", .str "g8"), ("consentAgreed", .str "TRUE")]
        "consentAgreed")) = "true"
    ∧ (sqliteCycleRows
          [("gradeLevel", .str "g8"), ("consentAgreed", .str "TRUE")] 7).map
        (fun r => r.get "consentAgreed") = [.bool false] := by
  decide

/-- C1 (amended): after a submit+fetch cycle the fetched `consentAgreed`
is, in the MongoDB variant, the boolean `true` exactly when the submitted
value converted to a string compares case-insensitively equal to `"true"`
(and `false` for every other value, omission included); in the SQLite
variant it is `true` exactly when the submitted value is truthy and its
string conversion equals exactly `"true"` or `"1"`, case-sensitively. -/
theorem consent_roundtrip_amended (data : Obj) (now : Int) (hg : gradeOk data) :
    (∃ r : Obj, mongoCycleRows data now = [r]
      ∧ (r.get "consentAgreed" = .bool true
          ↔ jsToLower (jsString (data.get "consentAgreed")) = "true")
      ∧ (jsToLower (jsString (data.get "consentAgreed")) ≠ "true"
          → r.get "consentAgreed" = .bool false))
    ∧ (∃ r : Obj, sqliteCycleRows data now = [r]
      ∧ (r.get "consentAgreed" = .bool true
          ↔ truthy (data.get "consentAgreed") = true
            ∧ (jsString (data.get "consentAgreed") = "true"
               ∨ jsString (data.get "consentAgreed") = "1"))
      ∧ (¬ (truthy (data.get "consentAgreed") = true
            ∧ (jsString (data.get "consentAgreed") = "true"
               ∨ jsString (data.get "consentAgreed") = "1"))
          → r.get "consentAgreed" = .bool false)) := by
  constructor
  · obtain ⟨d, hcyc, hother, _⟩ := mongoCycleRows_eq data now
    have h1 : (mongoProcessRow d).get "consentAgreed"
        = .bool (jsToLower (jsString (data.get "consentAgreed")) == "true") := by
      rw [mongoProcessRow_get_other d _ (by decide) (by decide) (by decide)
          (by decide),
        hother "consentAgreed" (by decide), mongoDocToInsert_get_consent]
    refine ⟨mongoProcessRow d, by rw [hcyc], ?_, ?_⟩
    · rw [h1]
      simp [beq_iff_eq]
    · intro hne
      rw [h1]
      simp [beq_eq_false_iff_ne, hne]
  · have h1 : (sqliteFetchRow (sqliteNewRow data 1 now)).get "consentAgreed"
        = .bool ((consentValue data == "true") || (consentValue data == "1")) := by
      rw [sqliteFetchRow_get_consent, (sqliteNewRow_get data 1 now).2.1]
      show JVal.bool (JVal.beq _ _ || JVal.beq _ _ || JVal.beq _ _) = _
      simp only [JVal.beq, Bool.or_false]
    refine ⟨sqliteFetchRow (sqliteNewRow data 1 now),
      sqliteCycleRows_eq data now hg, ?_, ?_⟩
    · rw [h1]
      by_cases ht : truthy (data.get "consentAgreed") = true
      · simp [consentValue, ht, beq_iff_eq]
      · rw [Bool.not_eq_true] at ht
        simp [consentValue, ht]
    · intro hn
      rw [h1]
      by_cases ht : truthy (data.get "consentAgreed") = true
      · have h2 : ¬ (jsString (data.get "consentAgreed") = "true"
            ∨ jsString (data.get "consentAgreed") = "1") := fun hc => hn ⟨ht, hc⟩
        push_neg at h2
        simp [consentValue, ht, beq_eq_false_iff_ne, h2.1, h2.2]
      · rw [Bool.not_eq_true] at ht
        simp [consentValue, ht]

/-- C2 counterexample: submitting `q1_c` as the single string `"a"` through
the SQLite variant stores `"\"a\""` and the fetch parses it back to the
scalar string `"a"`, not the claimed one-element list. -/
theorem q1c_scalar_counterexample :
    (sqliteCycleRows [("gradeLevel", .str "g8"), ("q1_c", .str "a")] 7).map
        (fun r => r.get "q1_c") = [.str "a"]
    ∧ JVal.str "a" ≠ .arr [.str "a"] := by
  decide

/-- C2 (amended): after a submit+fetch cycle, `q1_c` behaves as claimed in
the MongoDB variant (truthy scalar wrapped into a one-element list, list
kept as submitted, omission giving the empty list); in the SQLite variant
a submitted list of strings and an omitted field behave as claimed, but a
truthy scalar string comes back as that scalar string, not as a
one-element list. -/
theorem q1c_roundtrip_amended (data : Obj) (now : Int) (hg : gradeOk data) :
    (∃ r : Obj, mongoCycleRows data now = [r]
      ∧ (∀ s : String, data.get "q1_c" = .str s → s ≠ "" →
          r.get "q1_c" = .arr [.str s])
      ∧ (∀ xs : List JVal, data.get "q1_c" = .arr xs → r.get "q1_c" = .arr xs)
      ∧ (data.get "q1_c" = .undef → r.get "q1_c" = .arr []))
    ∧ (∃ r : Obj, sqliteCycleRows data now = [r]
      ∧ (∀ s : String, data.get "q1_c" = .str s → s ≠ "" →
          s.data.all goodChar = true → r.get "q1_c" = .str s)
      ∧ (∀ ss : List String, data.get "q1_c" = .arr (ss.map .str) →
          (∀ t ∈ ss, t.data.all goodChar = true) →
          r.get "q1_c" = .arr (ss.map .str))
      ∧ (data.get "q1_c" = .undef → r.get "q1_c" = .arr [])) := by
  constructor
  · obtain ⟨d, hcyc, hother, _⟩ := mongoCycleRows_eq data now
    have h1 : (mongoProcessRow d).get "q1_c"
        = (match data.get "q1_c" with
           | .arr xs => .arr xs
           | v => if truthy v then .arr [v] else .arr []) := by
      rw [mongoProcessRow_get_other d _ (by decide) (by decide) (by decide)
          (by decide),
        hother "q1_c" (by decide), mongoDocToInsert_get_q1c]
    refine ⟨mongoProcessRow d, by rw [hcyc], ?_, ?_, ?_⟩
    · intro s hs hne
      rw [h1, hs]
      simp [truthy, hne]
    · intro xs hxs
      rw [h1, hxs]
    · intro hu
      rw [h1, hu]
      simp [truthy]
  · have hq : (sqliteFetchRow (sqliteNewRow data 1 now)).get "q1_c"
        = (match jsonParse (q1cJson data) with
           | some v => v
           | none => .arr []) := by
      rw [sqliteFetchRow_get_q1c, (sqliteNewRow_get data 1 now).2.2.1]
      rfl
    refine ⟨sqliteFetchRow (sqliteNewRow data 1 now),
      sqliteCycleRows_eq data now hg, ?_, ?_, ?_⟩
    · intro s hs hne hgood
      rw [hq]
      have : q1cJson data = jsonStringify (.str s) := by
        unfold q1cJson
        rw [hs]
        simp [truthy, hne]
      rw [this, jsonParse_stringify_str s hgood]
    · intro ss hss hgood
      rw [hq]
      have : q1cJson data = jsonStringify (.arr (ss.map .str)) := by
        unfold q1cJson
        rw [hss]
        simp [truthy]
      rw [this, jsonParse_stringify_strList ss hgood]
    · intro hu
      rw [hq]
      have : q1cJson data = jsonStringify (.arr (([] : List String).map .str)) := by
        unfold q1cJson
        rw [hu]
        simp [truthy]
      rw [this, jsonParse_stringify_strList [] (by intro t ht; cases ht)]
      rfl

/-- A value other than `undefined` binds (SQLite) or stores (MongoDB) as
itself. -/
theorem bindVal_ne_undef (v : JVal) (h : v ≠ .undef) : bindVal v = v := by
  cases v <;> simp [bindVal] at h ⊢

/-- C3: a payload carrying a `finalReadingDuration` value round-trips it
through the storage key `readingDuration`: a submit followed by a fetch
returns a record with the same value under the client-facing key
`finalReadingDuration`, in both variants, and the storage key itself is
absent from the fetched record. -/
theorem duration_roundtrip (data : Obj) (now : Int) (v : JVal)
    (hv : data.get "finalReadingDuration" = v) (hu : v ≠ .undef)
    (hg : gradeOk data) :
    (∃ r : Obj, mongoCycleRows data now = [r]
      ∧ r.get "finalReadingDuration" = v
      ∧ r.hasKey "readingDuration" = false)
    ∧ (∃ r : Obj, sqliteCycleRows data now = [r]
      ∧ r.get "finalReadingDuration" = v
      ∧ r.hasKey "readingDuration" = false) := by
  constructor
  · obtain ⟨d, hcyc, hother, _⟩ := mongoCycleRows_eq data now
    refine ⟨mongoProcessRow d, by rw [hcyc], ?_, mongoProcessRow_hasKey_rd d⟩
    rw [mongoProcessRow_get_frd, hother "readingDuration" (by decide),
      mongoDocToInsert_get_rd, hv]
  · refine ⟨sqliteFetchRow (sqliteNewRow data 1 now),
      sqliteCycleRows_eq data now hg, ?_,
      sqliteFetchRow_hasKey_rd (sqliteNewRow data 1 now)⟩
    rw [sqliteFetchRow_get_frd, (sqliteNewRow_get data 1 now).2.2.2.1, hv,
      bindVal_ne_undef v hu]

/-- C4: the results endpoint returns all stored records newest-first: the
SQLite variant (`ORDER BY id DESC` over autoincremented ids) returns the
reverse of the insertion order for every submission sequence; the MongoDB
variant (`sort timestamp -1` over server-assigned timestamps) does so
whenever the server clock is strictly increasing across the submissions. -/
theorem results_newest_first :
    (∀ ps : List (Obj × Int),
      sqliteResultsRows (sqliteSubmitSeq sqliteEmptyDB ps)
        = (sqliteSubmitSeq sqliteEmptyDB ps).rows.reverse.map sqliteFetchRow)
    ∧ (∀ ps : List (Obj × Int), (ps.map (·.2)).Pairwise (· < ·) →
      mongoResultsRows (mongoSubmitSeq mongoEmptyStore ps)
        = (mongoSubmitSeq mongoEmptyStore ps).docs.reverse.map mongoProcessRow) :=
  ⟨sqliteResults_reverse, mongoResults_reverse⟩

/-- Witness for C1 at a concrete payload. -/
theorem consent_roundtrip_amended_witness :
    (∃ r : Obj, mongoCycleRows w1data 7 = [r]
      ∧ (r.get "consentAgreed" = .bool true
          ↔ jsToLower (jsString (w1data.get "consentAgreed")) = "true")
      ∧ (jsToLower (jsString (w1data.get "consentAgreed")) ≠ "true"
          → r.get "consentAgreed" = .bool false))
    ∧ (∃ r : Obj, sqliteCycleRows w1data 7 = [r]
      ∧ (r.get "consentAgreed" = .bool true
          ↔ truthy (w1data.get "consentAgreed") = true
            ∧ (jsString (w1data.get "consentAgreed") = "true"
               ∨ jsString (w1data.get "consentAgreed") = "1"))
      ∧ (¬ (truthy (w1data.get "consentAgreed") = true
            ∧ (jsString (w1data.get "consentAgreed") = "true"
               ∨ jsString (w1data.get "consentAgreed") = "1"))
          → r.get "consentAgreed" = .bool false)) :=
  consent_roundtrip_amended w1data 7 (by decide)

/-- Witness for C2 at a concrete payload. -/
theorem q1c_roundtrip_amended_witness :
    (∃ r : Obj, mongoCycleRows w2data 7 = [r]
      ∧ (∀ s : String, w2data.get "q1_c" = .str s → s ≠ "" →
          r.get "q1_c" = .arr [.str s])
      ∧ (∀ xs : List JVal, w2data.get "q1_c" = .arr xs → r.get "q1_c" = .arr xs)
      ∧ (w2data.get "q1_c" = .undef → r.get "q1_c" = .arr []))
    ∧ (∃ r : Obj, sqliteCycleRows w2data 7 = [r]
      ∧ (∀ s : String, w2data.get "q1_c" = .str s → s ≠ "" →
          s.data.all goodChar = true → r.get "q1_c" = .str s)
      ∧ (∀ ss : List String, w2data.get "q1_c" = .arr (ss.map .str) →
          (∀ t ∈ ss, t.data.all goodChar = true) →
          r.get "q1_c" = .arr (ss.map .str))
      ∧ (w2data.get "q1_c" = .undef → r.get "q1_c" = .arr [])) :=
  q1c_roundtrip_amended w2data 7 (by decide)

/-- Witness for C3 at a concrete payload. -/
theorem duration_roundtrip_witness :
    (∃ r : Obj, mongoCycleRows w3data 7 = [r]
      ∧ r.get "finalReadingDuration" = .num 42
      ∧ r.hasKey "readingDuration" = false)
    ∧ (∃ r : Obj, sqliteCycleRows w3data 7 = [r]
      ∧ r.get "finalReadingDuration" = .num 42
      ∧ r.hasKey "readingDuration" = false) :=
  duration_roundtrip w3data 7 (.num 42) (by decide) (by decide) (by decide)

/-- Witness for C4 at a concrete two-submission sequence. -/
theorem results_newest_first_witness :
    sqliteResultsRows (sqliteSubmitSeq sqliteEmptyDB w4seq)
      = (sqliteSubmitSeq sqliteEmptyDB w4seq).rows.reverse.map sqliteFetchRow
    ∧ mongoResultsRows (mongoSubmitSeq mongoEmptyStore w4seq)
      = (mongoSubmitSeq mongoEmptyStore w4seq).docs.reverse.map mongoProcessRow :=
  ⟨results_newest_first.1 w4seq, results_newest_first.2 w4seq (by decide)⟩

/-- Witness for C7 at a concrete stored row. -/
theorem results_shape_amended_witness :
    (sqliteFetchRow w7row).hasKey "id" = true
    ∧ (sqliteFetchRow w7row).hasKey "finalReadingDuration" = true
    ∧ (sqliteFetchRow w7row).hasKey "_id" = false
    ∧ (sqliteFetchRow w7row).hasKey "readingDuration" = false
    ∧ (sqliteFetchRow w7row).get "finalReadingDuration"
        = w7row.get "readingDuration"
    ∧ ∀ k, k ≠ "q1_c" → k ≠ "consentAgreed" → k ≠ "finalReadingDuration" →
        k ≠ "readingDuration" → (sqliteFetchRow w7row).get k = w7row.get k :=
  results_shape_amended.2 w7row (by decide) (by decide)

/-- Witness for C8 at a concrete payload against the empty stores. -/
theorem submit_success_201_witness :
    (∃ db', sqliteRun sqliteEmptyDB w8data 7 = .ok (db', sqliteEmptyDB.nextId)
      ∧ (sqliteSubmitResponse (sqliteRun sqliteEmptyDB w8data 7)).1 = 201
      ∧ ((sqliteSubmitResponse (sqliteRun sqliteEmptyDB w8data 7)).2).get "message"
          = .str "Survey submitted successfully!"
      ∧ ((sqliteSubmitResponse (sqliteRun sqliteEmptyDB w8data 7)).2).get "id"
          = .num sqliteEmptyDB.nextId
      ∧ sqliteEmptyDB.nextId ≠ 0)
    ∧ (∃ store', mongoSubmit mongoEmptyStore w8data 7
          = (store', .num mongoEmptyStore.nextId)
      ∧ store'.docs = mongoEmptyStore.docs
          ++ [(mongoDocToInsert w8data 7).set "_id" (.num mongoEmptyStore.nextId)]
      ∧ (mongoSubmitResponse (.ok (mongoSubmit mongoEmptyStore w8data 7).2)).1 = 201
      ∧ ((mongoSubmitResponse (.ok (mongoSubmit mongoEmptyStore w8data 7).2)).2).get
          "message" = .str "Survey submitted successfully!"
      ∧ ((mongoSubmitResponse (.ok (mongoSubmit mongoEmptyStore w8data 7).2)).2).get
          "id" = .num mongoEmptyStore.nextId
      ∧ mongoEmptyStore.nextId ≠ 0) :=
  submit_success_201 sqliteEmptyDB mongoEmptyStore w8data 7 (by decide) (by decide)
    (by decide) (by decide)

/-- Witness for C9: a payload without `gradeLevel` gets 201 from the
MongoDB variant and 500 from the SQLite variant. -/
theorem no_validation_amended_witness :
    (mongoSubmitResponse (.ok (mongoSubmit mongoEmptyStore w9data 7).2)).1 = 201
    ∧ (sqliteSubmitResponse (sqliteRun sqliteEmptyDB w9data 7)).1 = 500 :=
  ⟨(no_validation_amended w9data 7 mongoEmptyStore sqliteEmptyDB).1.1,
   (no_validation_amended w9data 7 mongoEmptyStore sqliteEmptyDB).2.2 (by decide)⟩

/-- Witness for C10 at a concrete row whose `q1_c` column is not JSON. -/
theorem q1c_parse_fallback_witness :
    (sqliteFetchRow w10row).get "q1_c" = .arr []
    ∧ (∀ k, k ≠ "q1_c" →
        (sqliteFetchRow w10row).get k
          = (sqliteFetchRow (w10row.set "q1_c" (.str "[]"))).get k)
    ∧ (∀ rows : List Obj, (sqliteResultsResponse (.ok rows)).1 = 200) :=
  q1c_parse_fallback w10row "not json" (by decide) (by decide)

end Survey


